import Mathlib

/-!
Shallow embedding of the sliding-window context manager
(`examples/agent-context-manager/context.py`) and verification of the
specification's claims about it.

Python integers are unbounded, so token counts and budgets are modelled by
`Int` (a user-supplied estimator may even return negative values; the default
one never does).  Messages are `{role, content}` string records.  Every method
of the Python class is translated as a pure function on the `ContextWindow`
state record.
-/

/-- A chat message: the dict `{"role": ..., "content": ...}` used throughout
context.py. -/
structure Message where
  role : String
  content : String
deriving DecidableEq

/-- Python `estimate_tokens`: `max(1, len(text) // 4)`.  `len` is a
non-negative integer and `//` is floor division, so it is `Nat` division. -/
def estimate_tokens (text : String) : Int :=
  ((max 1 (text.length / 4) : Nat) : Int)

/-- State of the Python `ContextWindow` class: configuration fields set in
`__init__` plus the mutable `system` and `messages` fields. -/
structure ContextWindow where
  max_tokens : Int
  reserve_tokens : Int
  count_tokens : String → Int
  system : Option Message
  messages : List Message

/-- Python `ContextWindow.__init__`: `self.count_tokens = token_counter or
estimate_tokens` (a function object is always truthy, `None` is falsy, so
this is exactly `Option.getD`); `system = None`, `messages = []`. -/
def ContextWindow.mk_init (mt rt : Int) (token_counter : Option (String → Int)) :
    ContextWindow :=
  { max_tokens := mt
    reserve_tokens := rt
    count_tokens := token_counter.getD estimate_tokens
    system := none
    messages := [] }

/-- Python `ContextWindow._message_tokens`: `self.count_tokens(msg["content"]) + 4`. -/
def ContextWindow.message_tokens (cw : ContextWindow) (msg : Message) : Int :=
  cw.count_tokens msg.content + 4

/-- Python `ContextWindow.set_system`. -/
def ContextWindow.set_system (cw : ContextWindow) (content : String) : ContextWindow :=
  { cw with system := some { role := "system", content := content } }

/-- Python `ContextWindow.add`: append to the end of `messages`. -/
def ContextWindow.add (cw : ContextWindow) (role content : String) : ContextWindow :=
  { cw with messages := cw.messages ++ [{ role := role, content := content }] }

/-- Python `ContextWindow.add_user`. -/
def ContextWindow.add_user (cw : ContextWindow) (content : String) : ContextWindow :=
  cw.add "user" content

/-- Python `ContextWindow.add_assistant`. -/
def ContextWindow.add_assistant (cw : ContextWindow) (content : String) : ContextWindow :=
  cw.add "assistant" content

/-- The local variable `budget` in Python `render` after both subtractions:
`max_tokens - reserve_tokens`, minus the system message's accounted cost when
a system message is set. -/
def ContextWindow.renderBudget (cw : ContextWindow) : Int :=
  match cw.system with
  | some s => cw.max_tokens - cw.reserve_tokens - cw.message_tokens s
  | none => cw.max_tokens - cw.reserve_tokens

/-- The `for msg in reversed(self.messages)` loop of Python `render`: the
first argument list is the already-reversed history; `break` on the first
message with `used + msg_tokens > budget`, otherwise keep it and accumulate
`used`. -/
def ContextWindow.keepLoop (cw : ContextWindow) (budget : Int) :
    List Message → Int → List Message
  | [], _ => []
  | msg :: rest, used =>
    if used + cw.message_tokens msg > budget then []
    else msg :: cw.keepLoop budget rest (used + cw.message_tokens msg)

/-- The local `kept` of Python `render`, after `kept.reverse()`. -/
def ContextWindow.kept (cw : ContextWindow) : List Message :=
  (cw.keepLoop cw.renderBudget cw.messages.reverse 0).reverse

/-- Python `ContextWindow.render`: the system message first when set, then
the kept history in chronological order. -/
def ContextWindow.render (cw : ContextWindow) : List Message :=
  (match cw.system with | some s => [s] | none => []) ++ cw.kept

/-- Python `ContextWindow.token_count`: running total over the system message
(when set) and every history message. -/
def ContextWindow.token_count (cw : ContextWindow) : Int :=
  let total : Int :=
    match cw.system with
    | some s => cw.message_tokens s
    | none => 0
  cw.messages.foldl (fun acc msg => acc + cw.message_tokens msg) total

/-- Python `ContextWindow.available_tokens`: `max_tokens` minus the summed
accounted cost of `render()`'s result. -/
def ContextWindow.available_tokens (cw : ContextWindow) : Int :=
  cw.max_tokens - (cw.render.map cw.message_tokens).sum

/-- Python `ContextWindow.clear`: empties `messages`; also unsets `system`
unless `keep_system`. -/
def ContextWindow.clear (cw : ContextWindow) (keep_system : Bool) : ContextWindow :=
  { cw with
    messages := []
    system := if keep_system then cw.system else none }

/-- Python `render` viewed as a state operation: it returns the trimmed view
and performs no assignment to `self`, so the state comes back unchanged. -/
def ContextWindow.renderOp (cw : ContextWindow) : List Message × ContextWindow :=
  (cw.render, cw)

/-! ### The specification's render algorithm (for the refinement claim C1)

The following two definitions are written from the WORDS of spec §4.2
("render" steps 1–5), not from the code: the walk is a left fold over the
newest-first history carrying the kept set, the used total, and a stopped
flag ("stop walking: this message and everything older is dropped"). -/

/-- One step of the spec's newest-first walk: once stopped, stay stopped;
otherwise a message that would push `used` past `budget` stops the walk, and
any other message joins the kept set and increases `used` by its cost. -/
def specWalkStep (cost : Message → Int) (budget : Int)
    (st : List Message × Int × Bool) (msg : Message) : List Message × Int × Bool :=
  if st.2.2 then st
  else if st.2.1 + cost msg > budget then (st.1, st.2.1, true)
  else (st.1 ++ [msg], st.2.1 + cost msg, false)

/-- Spec §4.2 `render`, steps 1–5: budget, pinned subtraction, newest-first
greedy walk, reverse the kept set back to chronological order, prepend the
pinned message when present. -/
def specRender (cw : ContextWindow) : List Message :=
  let pinnedCost : Int :=
    match cw.system with
    | some s => cw.message_tokens s
    | none => 0
  let budget := cw.max_tokens - cw.reserve_tokens - pinnedCost
  let walked := cw.messages.reverse.foldl (specWalkStep cw.message_tokens budget) ([], 0, false)
  (match cw.system with | some s => [s] | none => []) ++ walked.1.reverse

/-! ### Helper lemmas -/

/-- The default estimator never returns less than one token. -/
lemma one_le_estimate_tokens (s : String) : 1 ≤ estimate_tokens s := by
  unfold estimate_tokens
  exact_mod_cast le_max_left 1 (s.length / 4)

/-- Once the spec walk has stopped, the rest of the fold changes nothing. -/
lemma foldl_specWalkStep_stopped (cost : Message → Int) (budget : Int) :
    ∀ (l : List Message) (k : List Message) (u : Int),
      l.foldl (specWalkStep cost budget) (k, u, true) = (k, u, true) := by
  intro l
  induction l with
  | nil => intro k u; rfl
  | cons m rest ih =>
    intro k u
    simpa [List.foldl_cons, specWalkStep] using ih k u

/-- A running spec walk computes exactly the code's `keepLoop`, appended to
the kept set accumulated so far. -/
lemma foldl_specWalkStep_eq_keepLoop (cw : ContextWindow) (budget : Int) :
    ∀ (l : List Message) (k : List Message) (u : Int),
      (l.foldl (specWalkStep cw.message_tokens budget) (k, u, false)).1
        = k ++ cw.keepLoop budget l u := by
  intro l
  induction l with
  | nil => intro k u; simp [ContextWindow.keepLoop]
  | cons m rest ih =>
    intro k u
    by_cases h : u + cw.message_tokens m > budget
    · simp [List.foldl_cons, specWalkStep, h, ContextWindow.keepLoop,
        foldl_specWalkStep_stopped]
    · simp [List.foldl_cons, specWalkStep, h, ContextWindow.keepLoop, ih]

/-- `keepLoop` only ever keeps an initial segment of the list it walks. -/
lemma keepLoop_append_eq (cw : ContextWindow) (budget : Int) :
    ∀ (l : List Message) (u : Int), ∃ suf, l = cw.keepLoop budget l u ++ suf := by
  intro l
  induction l with
  | nil => intro u; exact ⟨[], rfl⟩
  | cons m rest ih =>
    intro u
    by_cases h : u + cw.message_tokens m > budget
    · exact ⟨m :: rest, by simp [ContextWindow.keepLoop, h]⟩
    · obtain ⟨suf, hsuf⟩ := ih (u + cw.message_tokens m)
      refine ⟨suf, ?_⟩
      simp only [ContextWindow.keepLoop, if_neg h, List.cons_append]
      exact congrArg (m :: ·) hsuf

/-- A left fold of additions is the initial value plus the mapped sum. -/
lemma foldl_add_map_sum (f : Message → Int) :
    ∀ (l : List Message) (init : Int),
      l.foldl (fun acc msg => acc + f msg) init = init + (l.map f).sum := by
  intro l
  induction l with
  | nil => intro i; simp
  | cons m rest ih =>
    intro i
    simp [List.foldl_cons, ih]
    ring

/-- Whatever `keepLoop` keeps fits in the remaining budget, provided the
walk starts within budget. -/
lemma keepLoop_sum_le (cw : ContextWindow) (budget : Int) :
    ∀ (l : List Message) (u : Int), u ≤ budget →
      u + ((cw.keepLoop budget l u).map cw.message_tokens).sum ≤ budget := by
  intro l
  induction l with
  | nil => intro u hu; simpa [ContextWindow.keepLoop] using hu
  | cons m rest ih =>
    intro u hu
    by_cases h : u + cw.message_tokens m > budget
    · simpa [ContextWindow.keepLoop, h] using hu
    · have h2 : u + cw.message_tokens m ≤ budget := by omega
      have h3 := ih (u + cw.message_tokens m) h2
      simp only [ContextWindow.keepLoop, if_neg h, List.map_cons, List.sum_cons]
      omega

/-- The kept history of a render fits in the render budget whenever that
budget is non-negative. -/
lemma kept_sum_le (cw : ContextWindow) (h : 0 ≤ cw.renderBudget) :
    (cw.kept.map cw.message_tokens).sum ≤ cw.renderBudget := by
  have h2 := keepLoop_sum_le cw cw.renderBudget cw.messages.reverse 0 h
  simpa [ContextWindow.kept, List.sum_reverse] using h2

/-! ### Claim C1 -/

/-- Scenario A pinned message: content "SYS", accounted cost 3 + 4 = 7 under
the length estimator. -/
def pinnedC1 : Message := { role := "system", content := "SYS" }

/-- Scenario A history, oldest first: three messages of content length 26,
accounted cost 26 + 4 = 30 each. -/
def msgC1a : Message := { role := "user", content := "abcdefghijklmnopqrstuvwxyz" }

/-- Second (middle) Scenario A history message, accounted cost 30. -/
def msgC1b : Message := { role := "assistant", content := "ABCDEFGHIJKLMNOPQRSTUVWXYZ" }

/-- Third (most recent) Scenario A history message, accounted cost 30. -/
def msgC1c : Message := { role := "user", content := "01234567890123456789012345" }

/-- The Scenario A manager: max 100, reserve 20, estimator returning the
exact text length, pinned "SYS", three history messages of cost 30. -/
def cwC1 : ContextWindow :=
  { max_tokens := 100
    reserve_tokens := 20
    count_tokens := fun s => (s.length : Int)
    system := some pinnedC1
    messages := [msgC1a, msgC1b, msgC1c] }

/-- C1: `render` computes its result by the spec's greedy newest-first pack
(budget = max minus reserve minus pinned cost, walk newest-first, stop at the
first overflow, reverse back, prepend the pinned message): `render` equals the
algorithm transcribed from the spec's words for every state, and on Scenario A
(max 100, reserve 20, length estimator with overhead 4, pinned "SYS" of cost 7,
three history messages of cost 30) it returns the pinned message followed by
the two most recent history messages. -/
theorem C1_render_is_greedy_newest_first_pack :
    (∀ cw : ContextWindow, cw.render = specRender cw) ∧
    cwC1.render = [pinnedC1, msgC1b, msgC1c] := by
  constructor
  · intro cw
    cases hsys : cw.system with
    | none =>
      have hw := foldl_specWalkStep_eq_keepLoop cw (cw.max_tokens - cw.reserve_tokens)
        cw.messages.reverse [] 0
      rw [List.nil_append] at hw
      simp only [ContextWindow.render, specRender, ContextWindow.kept,
        ContextWindow.renderBudget, hsys, sub_zero, List.nil_append]
      rw [hw]
    | some s =>
      have hw := foldl_specWalkStep_eq_keepLoop cw
        (cw.max_tokens - cw.reserve_tokens - cw.message_tokens s) cw.messages.reverse [] 0
      rw [List.nil_append] at hw
      simp only [ContextWindow.render, specRender, ContextWindow.kept,
        ContextWindow.renderBudget, hsys, List.singleton_append, List.cons_append,
        List.nil_append]
      rw [hw]
  · decide

/-! ### Claim C2 -/

/-- Scenario B single history message of accounted cost 56 + 4 = 60. -/
def msgC2 : Message := { role := "user", content := "hi" }

/-- The Scenario B manager: no pinned message, max 50, reserve 0, one history
message of accounted cost 60. -/
def cwC2 : ContextWindow :=
  { max_tokens := 50
    reserve_tokens := 0
    count_tokens := fun _ => (56 : Int)
    system := none
    messages := [msgC2] }

/-- C2: for every state, `render`'s result is the pinned message (when set)
followed by a contiguous suffix of the history in original order — some prefix
of the history is dropped whole and the rest is kept untouched; and on
Scenario B (no pinned, max 50, reserve 0, one message of cost 60) `render`
returns the empty sequence, the non-pinned message not being included
unconditionally. -/
theorem C2_render_is_suffix_of_history :
    (∀ cw : ContextWindow, ∃ pre,
        cw.render = (match cw.system with | some s => [s] | none => []) ++ cw.kept ∧
        cw.messages = pre ++ cw.kept) ∧
    cwC2.render = [] := by
  constructor
  · intro cw
    obtain ⟨suf, hsuf⟩ := keepLoop_append_eq cw cw.renderBudget cw.messages.reverse 0
    refine ⟨suf.reverse, rfl, ?_⟩
    have h2 := congrArg List.reverse hsuf
    simpa [ContextWindow.kept] using h2
  · decide

/-! ### Claim C3 -/

/-- Scenario C pinned message: accounted cost 196 + 4 = 200 under `cwC3`'s
estimator. -/
def pinnedC3 : Message := { role := "system", content := "SYS" }

/-- The Scenario C manager: pinned message of accounted cost 200, max 100,
reserve 0. -/
def cwC3 : ContextWindow :=
  { max_tokens := 100
    reserve_tokens := 0
    count_tokens := fun _ => (196 : Int)
    system := some pinnedC3
    messages := [] }

/-- C3: whenever a pinned message is set, `render` puts it first (even when
its cost alone exceeds the whole budget), `available_tokens` is `max_tokens`
minus the summed accounted cost of `render`'s result, and on Scenario C
(pinned cost 200, max 100, reserve 0) `render` returns exactly the pinned
message and `available_tokens` returns -100. -/
theorem C3_pinned_always_first :
    (∀ (cw : ContextWindow) (s : Message),
        cw.system = some s → cw.render = s :: cw.kept) ∧
    (∀ cw : ContextWindow,
        cw.available_tokens = cw.max_tokens - (cw.render.map cw.message_tokens).sum) ∧
    (cwC3.render = [pinnedC3] ∧ cwC3.available_tokens = -100) := by
  refine ⟨?_, fun cw => rfl, by decide, by decide⟩
  intro cw s h
  simp [ContextWindow.render, h]

/-- Witness for C3: on the Scenario C manager the hypothesis `system = some
pinned` holds and the pinned message is rendered first. -/
theorem C3_pinned_always_first_witness : cwC3.render = pinnedC3 :: cwC3.kept :=
  C3_pinned_always_first.1 cwC3 pinnedC3 rfl

/-! ### Claim C4 -/

/-- A manager constructed with an estimator that returns 0 on every input:
`__init__` accepts it without validation. -/
def cwC4 : ContextWindow := ContextWindow.mk_init 100 0 (some (fun _ => (0 : Int)))

/-- A concrete non-null input for the C4 counterexample. -/
def msgC4 : Message := { role := "user", content := "hello" }

/-- C4 counterexample: it is NOT the case that every constructed manager
accounts at least 1 + overhead tokens per message — construction with the
constant-zero estimator succeeds (there is no rejection path in `__init__`),
and the accounted cost of "hello" under it is 0 + 4 = 4 < 1 + 4. -/
theorem C4_counterexample_no_clamp :
    ¬ (∀ (tc : String → Int) (m : Message),
        1 + 4 ≤ (ContextWindow.mk_init 100 0 (some tc)).message_tokens m) := by
  intro h
  have h2 := h (fun _ => (0 : Int)) msgC4
  simp [ContextWindow.mk_init, ContextWindow.message_tokens] at h2

/-- C4 amended: the manager neither clamps nor rejects a non-positive
estimate — construction accepts any estimator unchecked, the accounted cost
is exactly `estimator(content) + 4`, and in particular the constant-zero
estimator yields accounted cost 4, below the claimed floor of 1 + 4. -/
theorem C4_amended_cost_unclamped :
    (∀ (mt rt : Int) (tc : String → Int) (m : Message),
        (ContextWindow.mk_init mt rt (some tc)).message_tokens m = tc m.content + 4) ∧
    cwC4.message_tokens msgC4 = 4 :=
  ⟨fun _ _ _ _ => rfl, rfl⟩

/-! ### Claim C5 -/

/-- A manager with reserve greater than max (budget 10 - 30 = -20), no pinned
message, the default estimator, and a non-empty history. -/
def cwC5 : ContextWindow :=
  { max_tokens := 10
    reserve_tokens := 30
    count_tokens := estimate_tokens
    system := none
    messages := [{ role := "user", content := "hello world" }] }

/-- C5: under the estimator contract (every estimate is at least 1), whenever
the budget after reserve and pinned subtraction is non-positive, `render`
keeps no history message: it returns only the pinned message when set, and the
empty sequence otherwise — in particular a negative `max_tokens -
reserve_tokens` is tolerated (render is total). -/
theorem C5_nonpositive_budget_keeps_nothing (cw : ContextWindow)
    (hest : ∀ s, 1 ≤ cw.count_tokens s) (hbud : cw.renderBudget ≤ 0) :
    cw.render = match cw.system with | some s => [s] | none => [] := by
  have hkept : cw.kept = [] := by
    unfold ContextWindow.kept
    cases hl : cw.messages.reverse with
    | nil => rfl
    | cons m rest =>
      have h1 : 1 ≤ cw.count_tokens m.content := hest m.content
      have h2 : cw.renderBudget < cw.message_tokens m := by
        unfold ContextWindow.message_tokens
        omega
      simp [ContextWindow.keepLoop, h2]
  cases hsys : cw.system with
  | none => simp [ContextWindow.render, hsys, hkept]
  | some s => simp [ContextWindow.render, hsys, hkept]

/-- Witness for C5: `cwC5` has the default estimator (contract holds), its
budget is 10 - 30 = -20 ≤ 0, no pinned message is set, and `render` is empty
despite the non-empty history. -/
theorem C5_nonpositive_budget_witness : cwC5.render = [] :=
  C5_nonpositive_budget_keeps_nothing cwC5 (fun s => one_le_estimate_tokens s) (by decide)

/-! ### Claim C6 -/

/-- C6: the default estimator `estimate_tokens` returns
`max(1, floor(len(text) / 4))` for every string, hence always at least 1 —
including on the empty string, where it returns exactly 1. -/
theorem C6_default_estimator_at_least_one :
    (∀ s : String, estimate_tokens s = ((max 1 (s.length / 4) : Nat) : Int)) ∧
    (∀ s : String, 1 ≤ estimate_tokens s) ∧
    estimate_tokens "" = 1 :=
  ⟨fun _ => rfl, one_le_estimate_tokens, by decide⟩

/-! ### Claim C7 -/

/-- A pinned message for the Scenario D manager. -/
def pinnedC7 : Message := { role := "system", content := "SYS" }

/-- A Scenario D manager: pinned message set and a non-empty history. -/
def cwC7 : ContextWindow :=
  { max_tokens := 100
    reserve_tokens := 20
    count_tokens := estimate_tokens
    system := some pinnedC7
    messages := [{ role := "user", content := "hello" }] }

/-- C7: `clear true` empties the history and leaves the pinned message and
all configuration fields unchanged, and a subsequent `render` returns exactly
the pinned message when one is set; `clear false` additionally unsets the
pinned message, after which `render` returns the empty sequence; both calls
are total functions, so neither can fail. -/
theorem C7_clear_empties_history (cw : ContextWindow) :
    ((cw.clear true).messages = [] ∧ (cw.clear true).system = cw.system ∧
      (cw.clear true).max_tokens = cw.max_tokens ∧
      (cw.clear true).reserve_tokens = cw.reserve_tokens ∧
      (cw.clear true).count_tokens = cw.count_tokens) ∧
    (∀ s, cw.system = some s → (cw.clear true).render = [s]) ∧
    ((cw.clear false).system = none ∧ (cw.clear false).messages = [] ∧
      (cw.clear false).render = []) := by
  refine ⟨⟨rfl, rfl, rfl, rfl, rfl⟩, ?_, rfl, rfl, rfl⟩
  intro s h
  simp [ContextWindow.clear, ContextWindow.render, ContextWindow.kept,
    ContextWindow.keepLoop, h]

/-- Witness for C7: clearing `cwC7` with `keep_system` leaves a render of
exactly its pinned message. -/
theorem C7_clear_empties_history_witness : (cwC7.clear true).render = [pinnedC7] :=
  (C7_clear_empties_history cwC7).2.1 pinnedC7 rfl

/-! ### Claim C8 -/

/-- C8: `token_count` is the summed accounted cost of the pinned message
(when set) plus every history message, independent of the budget; `add`
increases it by exactly the accounted cost of the appended message (so it
grows without bound past `max_tokens`); and `available_tokens` stays
determined by `render`'s clamped result. -/
theorem C8_total_tokens_unclamped :
    (∀ cw : ContextWindow, cw.token_count =
        (match cw.system with | some s => cw.message_tokens s | none => 0) +
        (cw.messages.map cw.message_tokens).sum) ∧
    (∀ (cw : ContextWindow) (r c : String),
        (cw.add r c).token_count
          = cw.token_count + cw.message_tokens { role := r, content := c }) ∧
    (∀ cw : ContextWindow,
        cw.available_tokens = cw.max_tokens - (cw.render.map cw.message_tokens).sum) := by
  refine ⟨?_, ?_, fun cw => rfl⟩
  · intro cw
    simp [ContextWindow.token_count, foldl_add_map_sum]
  · intro cw r c
    simp [ContextWindow.add, ContextWindow.token_count, foldl_add_map_sum,
      ContextWindow.message_tokens]

/-! ### Claim C9 -/

/-- C9: `render` is idempotent — as a state operation it leaves the manager
state unchanged, and calling it again on the state it returns yields the
identical message sequence. -/
theorem C9_render_idempotent (cw : ContextWindow) :
    cw.renderOp.2.renderOp.1 = cw.renderOp.1 ∧ cw.renderOp.2 = cw :=
  ⟨rfl, rfl⟩

/-! ### Claim C10 -/

/-- A contract-satisfying manager with no pinned message and
`reserve_tokens > max_tokens`: budget 10 - 20 = -10. -/
def cwC10 : ContextWindow :=
  { max_tokens := 10
    reserve_tokens := 20
    count_tokens := estimate_tokens
    system := none
    messages := [] }

/-- C10 counterexample: on a manager with the default (contract-satisfying)
estimator, no pinned message, `max_tokens = 10` and `reserve_tokens = 20`,
the summed accounted cost of `render`'s result (0, the empty render) exceeds
`max_tokens - reserve_tokens = -10`, and `available_tokens` is 10, below
`reserve_tokens` — so the claimed headroom bound fails as stated. -/
theorem C10_counterexample_reserve_exceeds_max :
    (∀ s, 1 ≤ cwC10.count_tokens s) ∧ cwC10.system = none ∧
    ¬ ((cwC10.render.map cwC10.message_tokens).sum
        ≤ cwC10.max_tokens - cwC10.reserve_tokens) ∧
    ¬ (cwC10.reserve_tokens ≤ cwC10.available_tokens) :=
  ⟨fun s => one_le_estimate_tokens s, rfl, by decide, by decide⟩

/-- C10 amended: under the estimator contract, whenever no pinned message is
set AND `reserve_tokens ≤ max_tokens`, or the pinned message's accounted cost
is at most `max_tokens - reserve_tokens`, the summed accounted cost of
`render`'s result is at most `max_tokens - reserve_tokens`, and hence
`available_tokens` is at least `reserve_tokens`. -/
theorem C10_headroom_amended (cw : ContextWindow)
    (hest : ∀ s, 1 ≤ cw.count_tokens s)
    (hcase : (cw.system = none ∧ cw.reserve_tokens ≤ cw.max_tokens) ∨
        (∃ s, cw.system = some s ∧
          cw.message_tokens s ≤ cw.max_tokens - cw.reserve_tokens)) :
    (cw.render.map cw.message_tokens).sum ≤ cw.max_tokens - cw.reserve_tokens ∧
    cw.reserve_tokens ≤ cw.available_tokens := by
  have hmain : (cw.render.map cw.message_tokens).sum
      ≤ cw.max_tokens - cw.reserve_tokens := by
    rcases hcase with ⟨hsys, hmr⟩ | ⟨s, hsys, hs⟩
    · have hrb : cw.renderBudget = cw.max_tokens - cw.reserve_tokens := by
        simp [ContextWindow.renderBudget, hsys]
      have hb : 0 ≤ cw.renderBudget := by omega
      have hk := kept_sum_le cw hb
      simp only [ContextWindow.render, hsys, List.nil_append]
      omega
    · have hrb : cw.renderBudget
          = cw.max_tokens - cw.reserve_tokens - cw.message_tokens s := by
        simp [ContextWindow.renderBudget, hsys]
      have hb : 0 ≤ cw.renderBudget := by omega
      have hk := kept_sum_le cw hb
      simp only [ContextWindow.render, hsys, List.singleton_append, List.map_cons,
        List.sum_cons]
      omega
  refine ⟨hmain, ?_⟩
  unfold ContextWindow.available_tokens
  omega

/-- A contract-satisfying manager with no pinned message and reserve below
max, used as the witness input for the amended C10. -/
def cwC10w : ContextWindow :=
  { max_tokens := 100
    reserve_tokens := 20
    count_tokens := estimate_tokens
    system := none
    messages := [{ role := "user", content := "hello world, this is a test" }] }

/-- Witness for C10 amended: on `cwC10w` (default estimator, no pinned
message, reserve 20 below max 100) the rendered cost is within budget and at
least `reserve_tokens` remain available. -/
theorem C10_headroom_amended_witness :
    (cwC10w.render.map cwC10w.message_tokens).sum
        ≤ cwC10w.max_tokens - cwC10w.reserve_tokens ∧
    cwC10w.reserve_tokens ≤ cwC10w.available_tokens :=
  C10_headroom_amended cwC10w (fun s => one_le_estimate_tokens s)
    (Or.inl ⟨rfl, by decide⟩)
